import Mathlib

/-!
Shallow embedding of the core logic of `src/app.py` (Working Hours Tracker).

Modelling conventions:
* Python `int` is `ℤ`; Python numbers produced by `/` and `round` are `ℚ`
  (for every input reachable here the float result of CPython agrees with
  the exact rational: the fractional part of `total/60 * 100` with integer
  `total` is 0, 1/3 or 2/3, so no value sits near a rounding boundary).
* `datetime.time` is a pair of hour/minute fields (`Time`).
* The SQLite table `entries` is a `Store`: a list of rows plus the
  AUTOINCREMENT counter; `INSERT` appends with the next id, `UPDATE ... WHERE
  id=?` maps over the rows, `SELECT ... ORDER BY date DESC, id DESC` sorts.
* Date strings are kept as `String` ("YYYY-MM-DD"); SQLite TEXT ordering and
  Python string ordering agree with Lean's `String` order on ASCII digits.
* Streamlit calls (`st.success`, `st.error`, `st.rerun`) are pure outcomes:
  each button handler returns the new store together with the message it
  would display.
-/

namespace Timesheet

/-- Python's `round` to an integer: round half to even (banker's rounding).
`q.num / q.den` is `⌊q⌋` (see `ratFloor_eq`), written out so the kernel can
evaluate it. -/
def roundHalfEven (q : ℚ) : ℤ :=
  let f : ℤ := q.num / (q.den : ℤ)
  let r := q - (f : ℚ)
  if r < 1/2 then f
  else if 1/2 < r then f + 1
  else if f % 2 = 0 then f else f + 1

theorem ratFloor_eq (q : ℚ) : q.num / (q.den : ℤ) = ⌊q⌋ :=
  Rat.floor_def.symm

/-- Python's `round(x, 2)`: round to 2 decimal places, half to even. -/
def round2 (q : ℚ) : ℚ :=
  ((roundHalfEven (q * 100) : ℚ)) / 100

/-- A `datetime.time` value: hour and minute fields (`time.hour`, `time.minute`). -/
structure Time where
  hour : ℕ
  minute : ℕ
deriving DecidableEq, Repr

/-- `calculate_hours` (src/app.py:98-102):
`s = start.hour*60 + start.minute`, `e = end.hour*60 + end.minute`,
`total = e - s - break_min`, `round(total/60, 2) if total > 0 else 0.0`. -/
def calculate_hours (start end_ : Time) (break_min : ℤ) : ℚ :=
  let s : ℤ := start.hour * 60 + start.minute
  let e : ℤ := end_.hour * 60 + end_.minute
  let total : ℤ := e - s - break_min
  if 0 < total then round2 ((total : ℚ) / 60) else 0

/-- The signed minute total `e - s - break_min` computed inside
`calculate_hours`, exposed for stating claims over decidable integers. -/
def totalMinutes (start end_ : Time) (break_min : ℤ) : ℤ :=
  ((end_.hour * 60 + end_.minute : ℕ) : ℤ) - ((start.hour * 60 + start.minute : ℕ) : ℤ)
    - break_min

/-- One row of the SQLite `entries` table (src/app.py:50-57).  `start_time`
and `end_time` are stored as "HH:MM" text in the database; the structured
`Time` value stands for that text. -/
structure Entry where
  id : ℕ
  date : String
  start_time : Time
  end_time : Time
  break_minutes : ℤ
  hours : ℚ
deriving DecidableEq, Repr

/-- The `entries` table: its rows in insertion order plus the AUTOINCREMENT
counter for the next `id`. -/
structure Store where
  entries : List Entry
  nextId : ℕ
deriving DecidableEq, Repr

/-- `add_entry` (src/app.py:67-76): `INSERT INTO entries ... VALUES (...)`;
SQLite assigns the next AUTOINCREMENT id. -/
def add_entry (st : Store) (date : String) (start_time end_time : Time)
    (break_minutes : ℤ) (hours : ℚ) : Store :=
  { entries := st.entries ++ [⟨st.nextId, date, start_time, end_time, break_minutes, hours⟩],
    nextId := st.nextId + 1 }

/-- `update_entry` (src/app.py:78-87): `UPDATE entries SET ... WHERE id=?`.
Rows whose id differs are untouched; if no row has the id, nothing changes. -/
def update_entry (st : Store) (entry_id : ℕ) (date : String)
    (start_time end_time : Time) (break_minutes : ℤ) (hours : ℚ) : Store :=
  { st with
    entries := st.entries.map fun en =>
      if en.id = entry_id then
        { en with date := date, start_time := start_time, end_time := end_time,
                  break_minutes := break_minutes, hours := hours }
      else en }

/-- Observable outcome of the Add / Update button handlers: either the
success path ran (`st.success`) or the `st.error("End must be after start.")`
branch was taken. -/
inductive HandlerOutcome where
  | success
  | validationError
deriving DecidableEq, Repr

/-- The "➕ Add" button handler (src/app.py:277-292): compute hours; insert
only when `hrs > 0`, otherwise show the validation error and change nothing. -/
def addHandler (st : Store) (date : String) (start_time end_time : Time)
    (break_min : ℤ) : Store × HandlerOutcome :=
  let hrs := calculate_hours start_time end_time break_min
  if 0 < hrs then
    (add_entry st date start_time end_time break_min hrs, .success)
  else
    (st, .validationError)

/-- The "💾 Update" button handler (src/app.py:257-275): compute hours; run
`update_entry edit_id ...` only when `hrs > 0`, otherwise show the
validation error and change nothing. -/
def updateHandler (st : Store) (edit_id : ℕ) (date : String)
    (start_time end_time : Time) (break_min : ℤ) : Store × HandlerOutcome :=
  let hrs := calculate_hours start_time end_time break_min
  if 0 < hrs then
    (update_entry st edit_id date start_time end_time break_min hrs, .success)
  else
    (st, .validationError)

/-- The clock-out branch of the live clock handler (src/app.py:199-215):
`hrs = (end - datetime clocked_in).total_seconds() / 3600` and the entry is
inserted with `hours = round(hrs, 2)` and `break_minutes = 0`, with no
validation of the computed value.  `in_seconds`/`out_seconds` are the two
`datetime.now()` values measured in seconds; `in_time`/`out_time` are their
"%H:%M" renderings stored in the row. -/
def clockOutHandler (st : Store) (today : String) (in_time out_time : Time)
    (in_seconds out_seconds : ℚ) : Store :=
  let hrs := (out_seconds - in_seconds) / 3600
  add_entry st today in_time out_time 0 (round2 hrs)

/-- `month_year` (src/app.py:104-105): parse "YYYY-MM-DD" and re-format as
"YYYY-MM"; on a well-formed ISO date this is its first seven characters. -/
def month_year (date_str : String) : String :=
  date_str.take 7

/-- `total_h` (src/app.py:332): `df_entries["hours"].sum()`. -/
def total_h (entries : List Entry) : ℚ :=
  (entries.map (·.hours)).sum

/-- The distinct month keys of a data frame, as in
`df_entries["date"].apply(month_year).unique()` (src/app.py:334, 359). -/
def uniqueMonths (entries : List Entry) : List String :=
  (entries.map fun en => month_year en.date).dedup

/-- The month filter and sum (src/app.py:363-364):
`df[df["date"].apply(month_year) == m]["hours"].sum()`. -/
def month_total (entries : List Entry) (m : String) : ℚ :=
  ((entries.filter fun en => month_year en.date = m).map (·.hours)).sum

/-- `overtime_badge` (src/app.py:110-115): `diff = total - target`; green
badge when `diff >= 0`, red otherwise.  The first component is the `diff`
shown inside the f-string badge text, the second the colour string. -/
def overtime_badge (total target : ℚ) : ℚ × String :=
  let diff := total - target
  if 0 ≤ diff then (diff, "green")
  else (diff, "red")

/-- One row of an uploaded bulk-import CSV (columns `Date,Start,End,Break`,
src/app.py:156-170).  `Start`/`End` hold the result of
`time.fromisoformat(...)` and `Break` the result of `int(...)`; `none`
models the parse raising, which the bare `except: continue` swallows. -/
structure CsvRow where
  Date : String
  Start : Option Time
  End : Option Time
  Break : Option ℤ
deriving DecidableEq, Repr

/-- One iteration of the bulk-import loop (src/app.py:165-181): parse the
row inside `try`, compute `hrs`, insert only when `hrs > 0`; any parse
failure hits `except: continue`, leaving the store as it was. -/
def importRow (st : Store) (row : CsvRow) : Store :=
  match row.Start, row.End, row.Break with
  | some s, some e, some b =>
      let hrs := calculate_hours s e b
      if 0 < hrs then add_entry st row.Date s e b hrs else st
  | _, _, _ => st

/-- The whole bulk-import handler (src/app.py:158-183): run every row
through the loop, then show the fixed message
`st.success("Bulk import completed!")`. -/
def bulk_import (st : Store) (rows : List CsvRow) : Store × String :=
  (rows.foldl importRow st, "Bulk import completed!")

/-- A row fails the bulk-import loop: either one of its fields does not
parse (the `except` path) or the computed total is non-positive (the
`hrs > 0` guard).  Such a row inserts nothing. -/
def rowRejected (row : CsvRow) : Prop :=
  match row.Start, row.End, row.Break with
  | some s, some e, some b => totalMinutes s e b ≤ 0
  | _, _, _ => True

/-- The `%a` weekday names used by the heatmap (src/app.py:403, 415). -/
inductive Weekday where
  | mon | tue | wed | thu | fri | sat | sun
deriving DecidableEq, Repr

/-- `weekday_order = ["Mon", "Tue", "Wed", "Thu", "Fri", "Sat", "Sun"]`
(src/app.py:415). -/
def weekday_order : List Weekday :=
  [.mon, .tue, .wed, .thu, .fri, .sat, .sun]

/-- One row of `df_heat` after the derived columns are added
(src/app.py:401-404): the pandas accessors `dt.isocalendar().week` and
`dt.strftime("%a")` are the external collaborator that turns the date into
an ISO week number and weekday name; their outputs are the input here. -/
structure HeatRow where
  week : ℕ
  weekday : Weekday
  hours : ℚ
deriving Repr

/-- The pivot table shape: its row index (weeks), its columns (weekdays)
and the cell values. -/
structure Heatmap where
  index : List ℕ
  cols : List Weekday
  value : ℕ → Weekday → ℚ

/-- `pivot_table(values="hours", index="week", columns="weekday",
aggfunc="sum", fill_value=0)` (src/app.py:406-412): the index is the weeks
that occur in the data, the columns the weekdays that occur, and each cell
the sum of `hours` over the matching rows (0 when no row matches, by
`fill_value=0`). -/
def pivot_table (rows : List HeatRow) : Heatmap :=
  { index := (rows.map (·.week)).dedup,
    cols := (rows.map (·.weekday)).dedup,
    value := fun w d =>
      ((rows.filter fun r => r.week = w ∧ r.weekday = d).map (·.hours)).sum }

/-- The zero-fill loop and reindex (src/app.py:414-419): every weekday of
`weekday_order` missing from the columns is added as a constant-0 column,
then the columns are put in `weekday_order`. -/
def fill_weekdays (h : Heatmap) : Heatmap :=
  { index := h.index,
    cols := weekday_order,
    value := fun w d => if d ∈ h.cols then h.value w d else 0 }

/-- The heatmap actually rendered (src/app.py:406-419). -/
def weekly_heatmap (rows : List HeatRow) : Heatmap :=
  fill_weekdays (pivot_table rows)

/-- The row order of `SELECT * FROM entries ORDER BY date DESC, id DESC`
(src/app.py:63): `a` comes no later than `b` when its date is larger, or
the dates tie and its id is at least as large. -/
def entryBefore (a b : Entry) : Prop :=
  b.date < a.date ∨ (a.date = b.date ∧ b.id ≤ a.id)

instance : DecidableRel entryBefore := fun a b =>
  inferInstanceAs (Decidable (b.date < a.date ∨ (a.date = b.date ∧ b.id ≤ a.id)))

instance : IsTotal Entry entryBefore where
  total a b := by
    rcases lt_trichotomy a.date b.date with h | h | h
    · exact Or.inr (Or.inl h)
    · rcases Nat.le_total b.id a.id with h' | h'
      · exact Or.inl (Or.inr ⟨h, h'⟩)
      · exact Or.inr (Or.inr ⟨h.symm, h'⟩)
    · exact Or.inl (Or.inl h)

instance : IsTrans Entry entryBefore where
  trans a b c hab hbc := by
    rcases hab with h1 | ⟨h1, h1'⟩ <;> rcases hbc with h2 | ⟨h2, h2'⟩
    · exact Or.inl (lt_trans h2 h1)
    · exact Or.inl (h2 ▸ h1)
    · exact Or.inl (h1 ▸ h2)
    · exact Or.inr ⟨h1.trans h2, h2'.trans h1'⟩

/-- `load_entries` (src/app.py:61-65): read all rows ordered by
`date DESC, id DESC`.  Any sort producing the SQL ordering is a faithful
model; insertion sort is used because it is structurally recursive. -/
def load_entries (st : Store) : List Entry :=
  List.insertionSort entryBefore st.entries

/-! ### Lemmas about the rounding model -/

theorem floor_le_roundHalfEven (q : ℚ) : ⌊q⌋ ≤ roundHalfEven q := by
  unfold roundHalfEven
  simp only [ratFloor_eq]
  split_ifs <;> omega

theorem le_roundHalfEven (q : ℚ) : q - 1/2 ≤ (roundHalfEven q : ℚ) := by
  have h1 := Int.floor_le q
  have h2 := Int.lt_floor_add_one q
  unfold roundHalfEven
  simp only [ratFloor_eq]
  split_ifs <;> push_cast <;> linarith

theorem roundHalfEven_le (q : ℚ) : (roundHalfEven q : ℚ) ≤ q + 1/2 := by
  have h1 := Int.floor_le q
  have h2 := Int.lt_floor_add_one q
  unfold roundHalfEven
  simp only [ratFloor_eq]
  split_ifs with hlt hgt <;> push_cast <;> linarith

theorem roundHalfEven_intCast (n : ℤ) : roundHalfEven (n : ℚ) = n := by
  unfold roundHalfEven
  simp only [ratFloor_eq, Int.floor_intCast]
  norm_num

theorem round2_intCast (n : ℤ) : round2 (n : ℚ) = n := by
  unfold round2
  rw [show ((n : ℚ) * 100) = ((n * 100 : ℤ) : ℚ) by push_cast; ring,
    roundHalfEven_intCast]
  push_cast
  ring

/-! ### Lemmas about `calculate_hours` -/

theorem calculate_hours_def (start end_ : Time) (break_min : ℤ) :
    calculate_hours start end_ break_min =
      if 0 < totalMinutes start end_ break_min
      then round2 ((totalMinutes start end_ break_min : ℚ) / 60) else 0 := by
  unfold calculate_hours totalMinutes
  push_cast
  rfl

theorem calculate_hours_eq_round2 (start end_ : Time) (break_min : ℤ)
    (h : 0 < totalMinutes start end_ break_min) :
    calculate_hours start end_ break_min
      = round2 ((totalMinutes start end_ break_min : ℚ) / 60) := by
  rw [calculate_hours_def, if_pos h]

theorem calculate_hours_pos (start end_ : Time) (break_min : ℤ)
    (h : 0 < totalMinutes start end_ break_min) :
    0 < calculate_hours start end_ break_min := by
  rw [calculate_hours_eq_round2 start end_ break_min h]
  set t := totalMinutes start end_ break_min with ht
  have h1 : (1 : ℚ) ≤ (t : ℚ) := by exact_mod_cast h
  have h2 : (1 : ℤ) ≤ ⌊(t : ℚ) / 60 * 100⌋ := by
    rw [Int.le_floor]
    push_cast
    linarith
  have h3 := floor_le_roundHalfEven ((t : ℚ) / 60 * 100)
  have h4 : (1 : ℚ) ≤ (roundHalfEven ((t : ℚ) / 60 * 100) : ℚ) := by
    exact_mod_cast le_trans h2 h3
  unfold round2
  linarith

theorem calculate_hours_nonpos (start end_ : Time) (break_min : ℤ)
    (h : totalMinutes start end_ break_min ≤ 0) :
    calculate_hours start end_ break_min = 0 := by
  rw [calculate_hours_def, if_neg (by omega)]

/-! ### Claim theorems -/

/-- C1: for every pair of time-of-day values and every break value with
`end_minutes - start_minutes - break > 0`, `calculate_hours` returns
`round((end_minutes - start_minutes - break) / 60, 2)`, a positive value. -/
theorem C1_calculate_hours_formula_and_pos (start end_ : Time) (break_min : ℤ)
    (h : 0 < totalMinutes start end_ break_min) :
    calculate_hours start end_ break_min
        = round2 ((totalMinutes start end_ break_min : ℚ) / 60) ∧
      0 < calculate_hours start end_ break_min :=
  ⟨calculate_hours_eq_round2 start end_ break_min h,
   calculate_hours_pos start end_ break_min h⟩

/-- Witness for C1: start 09:00, end 17:00, break 30 minutes. -/
theorem C1_witness :
    0 < totalMinutes ⟨9, 0⟩ ⟨17, 0⟩ 30 ∧
      (calculate_hours ⟨9, 0⟩ ⟨17, 0⟩ 30
          = round2 ((totalMinutes ⟨9, 0⟩ ⟨17, 0⟩ 30 : ℚ) / 60) ∧
        0 < calculate_hours ⟨9, 0⟩ ⟨17, 0⟩ 30) :=
  ⟨by decide, C1_calculate_hours_formula_and_pos ⟨9, 0⟩ ⟨17, 0⟩ 30 (by decide)⟩

/-- C2: whenever `end_minutes - start_minutes - break <= 0` (which covers
every case where the end time is earlier in the day than the start time),
`calculate_hours` returns the rejection value 0, and the Add button handler
inserts nothing, leaves the store unchanged and reports the validation
error. -/
theorem C2_nonpositive_rejected (st : Store) (date : String)
    (start end_ : Time) (break_min : ℤ)
    (h : totalMinutes start end_ break_min ≤ 0) :
    calculate_hours start end_ break_min = 0 ∧
      addHandler st date start end_ break_min = (st, .validationError) := by
  have h0 := calculate_hours_nonpos start end_ break_min h
  refine ⟨h0, ?_⟩
  unfold addHandler
  rw [h0, if_neg (lt_irrefl 0)]

/-- Witness for C2: start 09:00, end 08:00 (earlier in the day), break 0,
on a store already holding one entry. -/
theorem C2_witness :
    totalMinutes ⟨9, 0⟩ ⟨8, 0⟩ 0 ≤ 0 ∧
      (calculate_hours ⟨9, 0⟩ ⟨8, 0⟩ 0 = 0 ∧
        addHandler ⟨[⟨1, "2024-01-01", ⟨9, 0⟩, ⟨17, 0⟩, 30, 15/2⟩], 2⟩
            "2024-01-02" ⟨9, 0⟩ ⟨8, 0⟩ 0
          = (⟨[⟨1, "2024-01-01", ⟨9, 0⟩, ⟨17, 0⟩, 30, 15/2⟩], 2⟩,
              .validationError)) :=
  ⟨by decide,
   C2_nonpositive_rejected ⟨[⟨1, "2024-01-01", ⟨9, 0⟩, ⟨17, 0⟩, 30, 15/2⟩], 2⟩
     "2024-01-02" ⟨9, 0⟩ ⟨8, 0⟩ 0 (by decide)⟩

/-- C3 (code bug): the clock-out handler persists the entry without any
validation of the computed hours.  Clocking out at the very instant of
clocking in (elapsed 0 seconds) stores an entry whose `hours` value is 0,
violating the `hours > 0` persistence invariant that the form-add, update
and bulk-import paths all enforce. -/
theorem C3_clock_out_stores_zero_hours :
    (clockOutHandler ⟨[], 1⟩ "2026-10-12" ⟨9, 0⟩ ⟨9, 0⟩ 32400 32400).entries
      = [⟨1, "2026-10-12", ⟨9, 0⟩, ⟨9, 0⟩, 0, 0⟩] := by
  unfold clockOutHandler add_entry
  norm_num
  rw [show (0 : ℚ) = ((0 : ℤ) : ℚ) by norm_num, round2_intCast]

/-- C4 counterexample: updating an id absent from the store (empty store,
id 1) with valid inputs reports the success outcome (`st.success("Entry
updated!")`) and silently changes nothing — the operation never fails with
`NotFound`, contrary to the claim. -/
theorem C4_counterexample :
    updateHandler ⟨[], 1⟩ 1 "2024-01-01" ⟨9, 0⟩ ⟨17, 0⟩ 30
      = (⟨[], 1⟩, .success) := by
  have h : 0 < calculate_hours ⟨9, 0⟩ ⟨17, 0⟩ 30 :=
    calculate_hours_pos ⟨9, 0⟩ ⟨17, 0⟩ 30 (by decide)
  unfold updateHandler update_entry
  rw [if_pos h]
  rfl

/-- C4 amended: for an id absent from the store the update operation leaves
the store unchanged but reports no `NotFound` error (with valid inputs it
even reports success); for inputs whose recomputed total is non-positive it
fails with the validation error and every prior entry — in particular the
one being edited — is left completely unmodified. -/
theorem C4_update_amended (st : Store) (edit_id : ℕ) (date : String)
    (start end_ : Time) (break_min : ℤ) :
    ((∀ en ∈ st.entries, en.id ≠ edit_id) →
        (updateHandler st edit_id date start end_ break_min).1 = st) ∧
      (totalMinutes start end_ break_min ≤ 0 →
        updateHandler st edit_id date start end_ break_min
          = (st, .validationError)) := by
  constructor
  · intro habsent
    unfold updateHandler update_entry
    dsimp only
    split_ifs with h
    · show ({ st with entries := _ } : Store) = st
      have hmap : (st.entries.map fun en =>
          if en.id = edit_id then
            { en with date := date, start_time := start, end_time := end_,
                      break_minutes := break_min,
                      hours := calculate_hours start end_ break_min }
          else en) = st.entries := by
        calc (st.entries.map fun en =>
              if en.id = edit_id then
                { en with date := date, start_time := start, end_time := end_,
                          break_minutes := break_min,
                          hours := calculate_hours start end_ break_min }
              else en)
            = st.entries.map id := by
              apply List.map_congr_left
              intro en hen
              rw [if_neg (habsent en hen)]
              rfl
          _ = st.entries := List.map_id st.entries
      rw [hmap]
    · rfl
  · intro h
    have h0 := calculate_hours_nonpos start end_ break_min h
    unfold updateHandler
    rw [h0, if_neg (lt_irrefl 0)]

/-- Witness for C4 amended: an absent id on an empty store is a silent
no-op, and a rejected recomputation leaves the store untouched and reports
the validation error. -/
theorem C4_witness :
    (updateHandler ⟨[], 5⟩ 1 "2024-01-01" ⟨9, 0⟩ ⟨17, 0⟩ 30).1 = ⟨[], 5⟩ ∧
      updateHandler ⟨[], 5⟩ 1 "2024-01-02" ⟨9, 0⟩ ⟨8, 0⟩ 0
        = (⟨[], 5⟩, .validationError) :=
  ⟨(C4_update_amended ⟨[], 5⟩ 1 "2024-01-01" ⟨9, 0⟩ ⟨17, 0⟩ 30).1
      (by simp),
   (C4_update_amended ⟨[], 5⟩ 1 "2024-01-02" ⟨9, 0⟩ ⟨8, 0⟩ 0).2
      (by decide)⟩

/-- C5 counterexample: `calculate_hours` applies no policy to a negative
break.  With start 09:00, end 17:00 the result for break 0 is 8 hours, but
for break −60 it is 9 hours — the negative break inflates the result
instead of being rejected or clamped. -/
theorem C5_counterexample :
    calculate_hours ⟨9, 0⟩ ⟨17, 0⟩ 0 = 8 ∧
      calculate_hours ⟨9, 0⟩ ⟨17, 0⟩ (-60) = 9 := by
  constructor
  · rw [calculate_hours_eq_round2 ⟨9, 0⟩ ⟨17, 0⟩ 0 (by decide)]
    rw [show ((totalMinutes ⟨9, 0⟩ ⟨17, 0⟩ 0 : ℚ) / 60) = ((8 : ℤ) : ℚ) by
      norm_num [totalMinutes]]
    rw [round2_intCast]
    norm_num
  · rw [calculate_hours_eq_round2 ⟨9, 0⟩ ⟨17, 0⟩ (-60) (by decide)]
    rw [show ((totalMinutes ⟨9, 0⟩ ⟨17, 0⟩ (-60) : ℚ) / 60) = ((9 : ℤ) : ℚ) by
      norm_num [totalMinutes]]
    rw [round2_intCast]
    norm_num

/-- C5 amended: `calculate_hours` neither rejects nor clamps a negative
break — the negative break is subtracted as-is, so whenever the zero-break
total is already positive, any negative break strictly inflates the
returned hours value.  (Only the form widget constrains the break to be
non-negative; the bulk-import path does not.) -/
theorem C5_negative_break_inflates (start end_ : Time) (break_min : ℤ)
    (hb : break_min < 0) (h0 : 0 < totalMinutes start end_ 0) :
    calculate_hours start end_ 0 < calculate_hours start end_ break_min := by
  have hb' : 0 < totalMinutes start end_ break_min := by
    unfold totalMinutes at *
    omega
  rw [calculate_hours_eq_round2 start end_ 0 h0,
    calculate_hours_eq_round2 start end_ break_min hb']
  have key : (totalMinutes start end_ 0 : ℚ) + 1
      ≤ (totalMinutes start end_ break_min : ℚ) := by
    have : totalMinutes start end_ 0 + 1 ≤ totalMinutes start end_ break_min := by
      unfold totalMinutes
      omega
    exact_mod_cast this
  have h1 := roundHalfEven_le ((totalMinutes start end_ 0 : ℚ) / 60 * 100)
  have h2 := le_roundHalfEven ((totalMinutes start end_ break_min : ℚ) / 60 * 100)
  unfold round2
  linarith

/-- Witness for C5 amended: break −60 against break 0 on a 09:00–17:00 day. -/
theorem C5_witness :
    (-60 : ℤ) < 0 ∧ 0 < totalMinutes ⟨9, 0⟩ ⟨17, 0⟩ 0 ∧
      calculate_hours ⟨9, 0⟩ ⟨17, 0⟩ 0 < calculate_hours ⟨9, 0⟩ ⟨17, 0⟩ (-60) :=
  ⟨by decide, by decide,
   C5_negative_break_inflates ⟨9, 0⟩ ⟨17, 0⟩ (-60) (by decide) (by decide)⟩

/-- Splitting a sum of mapped values along a Boolean filter. -/
theorem sum_map_filter_split {α : Type} (p : α → Bool) (f : α → ℚ) :
    ∀ l : List α,
      ((l.filter p).map f).sum + ((l.filter fun a => ! p a).map f).sum
        = (l.map f).sum := by
  intro l
  induction l with
  | nil => simp
  | cons a t ih =>
    cases hpa : p a <;> simp [List.filter_cons, hpa] <;> linarith

/-- A list's mapped sum is the sum, over any duplicate-free list of keys
covering all its elements, of the mapped sums of the fibres. -/
theorem sum_map_partition {α κ : Type} [DecidableEq κ] (k : α → κ) (f : α → ℚ) :
    ∀ keys : List κ, keys.Nodup → ∀ l : List α, (∀ a ∈ l, k a ∈ keys) →
      (l.map f).sum
        = (keys.map fun m => ((l.filter fun a => k a = m).map f).sum).sum := by
  intro keys
  induction keys with
  | nil =>
    intro _ l hcov
    cases l with
    | nil => simp
    | cons a t => exact absurd (hcov a (List.mem_cons_self a t)) (List.not_mem_nil _)
  | cons m ms ih =>
    intro hnd l hcov
    have hsplit := sum_map_filter_split (fun a => decide (k a = m)) f l
    have hms : ms.Nodup := hnd.of_cons
    have hmnotin : m ∉ ms := (List.nodup_cons.mp hnd).1
    have hcov' : ∀ a ∈ l.filter fun a => ! decide (k a = m), k a ∈ ms := by
      intro a ha
      rcases List.mem_filter.mp ha with ⟨hal, hne⟩
      have hne' : ¬ k a = m := by simpa using hne
      rcases List.mem_cons.mp (hcov a hal) with h | h
      · exact absurd h hne'
      · exact h
    have hih := ih hms (l.filter fun a => ! decide (k a = m)) hcov'
    have hfib : ∀ m' ∈ ms,
        ((l.filter fun a => ! decide (k a = m)).filter fun a => k a = m')
          = l.filter fun a => k a = m' := by
      intro m' hm'
      have hmne : m' ≠ m := fun hcontra => hmnotin (hcontra ▸ hm')
      rw [List.filter_filter]
      apply List.filter_congr
      intro a _
      by_cases hka : k a = m'
      · simp [hka, hmne]
      · simp [hka]
    calc (l.map f).sum
        = ((l.filter fun a => decide (k a = m)).map f).sum
            + ((l.filter fun a => ! decide (k a = m)).map f).sum := hsplit.symm
      _ = ((l.filter fun a => decide (k a = m)).map f).sum
            + (ms.map fun m' =>
                (((l.filter fun a => ! decide (k a = m)).filter
                    fun a => k a = m').map f).sum).sum := by rw [hih]
      _ = ((l.filter fun a => decide (k a = m)).map f).sum
            + (ms.map fun m' =>
                ((l.filter fun a => k a = m').map f).sum).sum := by
            congr 1
            apply congrArg
            apply List.map_congr_left
            intro m' hm'
            rw [hfib m' hm']
      _ = ((m :: ms).map fun m' =>
            ((l.filter fun a => k a = m').map f).sum).sum := by
            rw [List.map_cons, List.sum_cons]

/-- C6: the total hours over a whole entry set equals the sum, over all its
distinct month keys, of the hours totals of the entries filtered to each
month — the month partition loses nothing and double-counts nothing. -/
theorem C6_month_partition (entries : List Entry) :
    total_h entries = ((uniqueMonths entries).map (month_total entries)).sum := by
  have h := sum_map_partition (fun en : Entry => month_year en.date)
    (fun en => en.hours)
    ((entries.map fun en => month_year en.date).dedup)
    (List.nodup_dedup _)
    entries
    (by
      intro a ha
      rw [List.mem_dedup]
      exact List.mem_map_of_mem (fun en : Entry => month_year en.date) ha)
  simpa only [total_h, uniqueMonths, month_total] using h

/-- C7: for every week that has at least one entry, the rendered heatmap
carries all seven weekdays as columns (in `weekday_order`), the week is a
row of the table, and every weekday of that week on which no entry falls is
mapped to a summed-hours value of exactly zero. -/
theorem C7_heatmap_zero_fill (rows : List HeatRow) (w : ℕ)
    (hw : ∃ r ∈ rows, r.week = w) :
    (weekly_heatmap rows).cols = weekday_order ∧
      w ∈ (weekly_heatmap rows).index ∧
      ∀ d : Weekday, (∀ r ∈ rows, r.week = w → r.weekday ≠ d) →
        (weekly_heatmap rows).value w d = 0 := by
  refine ⟨rfl, ?_, ?_⟩
  · obtain ⟨r, hr, hrw⟩ := hw
    show w ∈ (rows.map (·.week)).dedup
    exact List.mem_dedup.mpr (hrw ▸ List.mem_map_of_mem (·.week) hr)
  · intro d hmiss
    show (if d ∈ (pivot_table rows).cols then (pivot_table rows).value w d else 0) = 0
    split_ifs with hd
    · show ((rows.filter fun r => r.week = w ∧ r.weekday = d).map (·.hours)).sum = 0
      have hnil : (rows.filter fun r => r.week = w ∧ r.weekday = d) = [] := by
        rw [List.filter_eq_nil_iff]
        intro r hr
        simp only [decide_eq_true_eq, not_and]
        intro hrw
        exact hmiss r hr hrw
      rw [hnil]
      simp
    · rfl

/-- Witness for C7: a single entry on Monday of week 1; the heatmap still
has all seven weekday columns, week 1 as a row, and Tuesday summed to 0. -/
theorem C7_witness :
    (weekly_heatmap [⟨1, .mon, 8⟩]).cols = weekday_order ∧
      1 ∈ (weekly_heatmap [⟨1, .mon, 8⟩]).index ∧
      (weekly_heatmap [⟨1, .mon, 8⟩]).value 1 .tue = 0 :=
  ⟨(C7_heatmap_zero_fill [⟨1, .mon, 8⟩] 1 ⟨⟨1, .mon, 8⟩, by simp⟩).1,
   (C7_heatmap_zero_fill [⟨1, .mon, 8⟩] 1 ⟨⟨1, .mon, 8⟩, by simp⟩).2.1,
   (C7_heatmap_zero_fill [⟨1, .mon, 8⟩] 1 ⟨⟨1, .mon, 8⟩, by simp⟩).2.2 .tue
     (by
       intro r hr _
       simp only [List.mem_singleton] at hr
       subst hr
       decide)⟩

/-- C8: `overtime_badge` computes `delta = total - target`, shows the green
(at-or-above-target) badge exactly when `delta ≥ 0`, and in particular the
boundary `total = target = 160` (delta 0) counts as ahead, not behind. -/
theorem C8_overtime_boundary (total target : ℚ) :
    (overtime_badge total target).1 = total - target ∧
      ((overtime_badge total target).2 = "green" ↔ 0 ≤ total - target) ∧
      overtime_badge 160 160 = (0, "green") := by
  refine ⟨?_, ?_, ?_⟩
  · unfold overtime_badge
    dsimp only
    split_ifs <;> rfl
  · unfold overtime_badge
    dsimp only
    split_ifs with h
    · simpa using h
    · simp only [iff_false_intro h, iff_false]
      intro hcontra
      have : "red" ≠ "green" := by decide
      exact this hcontra
  · unfold overtime_badge
    norm_num

/-- A row that the bulk-import loop rejects inserts nothing. -/
theorem importRow_rejected {row : CsvRow} (h : rowRejected row) (st : Store) :
    importRow st row = st := by
  unfold importRow
  unfold rowRejected at h
  rcases row with ⟨d, s?, e?, b?⟩
  cases s? with
  | none => rfl
  | some s =>
    cases e? with
    | none => rfl
    | some e =>
      cases b? with
      | none => rfl
      | some b =>
        simp only at h ⊢
        rw [calculate_hours_nonpos s e b h, if_neg (lt_irrefl 0)]

/-- C9 counterexample: the bulk import reports the same fixed message
`"Bulk import completed!"` no matter how many rows were accepted or
skipped — here one batch accepts 1 row and another accepts 0, yet the
report to the caller is identical, so no count of accepted/skipped rows is
reported. -/
theorem C9_counterexample :
    (bulk_import ⟨[], 1⟩ [⟨"2024-01-05", some ⟨9, 0⟩, some ⟨17, 0⟩, some 30⟩]).2
        = (bulk_import ⟨[], 1⟩ [⟨"2024-01-06", none, none, none⟩]).2 ∧
      (bulk_import ⟨[], 1⟩
          [⟨"2024-01-05", some ⟨9, 0⟩, some ⟨17, 0⟩, some 30⟩]).1.entries.length = 1 ∧
      (bulk_import ⟨[], 1⟩ [⟨"2024-01-06", none, none, none⟩]).1.entries.length = 0 := by
  have hpos : 0 < calculate_hours ⟨9, 0⟩ ⟨17, 0⟩ 30 :=
    calculate_hours_pos ⟨9, 0⟩ ⟨17, 0⟩ 30 (by decide)
  refine ⟨rfl, ?_, rfl⟩
  show ((importRow ⟨[], 1⟩ ⟨"2024-01-05", some ⟨9, 0⟩, some ⟨17, 0⟩, some 30⟩).entries).length = 1
  unfold importRow
  simp only
  rw [if_pos hpos]
  rfl

/-- C9 amended: every candidate row is passed individually through the add
path; a row that fails parsing or validation is skipped without affecting
the rest of the batch; the import as a whole always completes — but it
reports only the fixed completion message, not a count of accepted and
skipped rows. -/
theorem C9_bulk_import_skips (row : CsvRow) (hrow : rowRejected row)
    (st : Store) (pre post : List CsvRow) :
    (bulk_import st (pre ++ row :: post)).1 = (bulk_import st (pre ++ post)).1 ∧
      (bulk_import st (pre ++ row :: post)).2 = "Bulk import completed!" := by
  constructor
  · show (pre ++ row :: post).foldl importRow st = (pre ++ post).foldl importRow st
    rw [List.foldl_append, List.foldl_append, List.foldl_cons,
      importRow_rejected hrow]
  · rfl

/-- Witness for C9 amended: a malformed row (all fields unparseable) in the
middle of a batch of two good rows is skipped, leaving exactly the result
of importing the two good rows, and the import completes with the fixed
message. -/
theorem C9_witness :
    (bulk_import ⟨[], 1⟩
          [⟨"2024-01-05", some ⟨9, 0⟩, some ⟨17, 0⟩, some 30⟩,
           ⟨"bad", none, none, none⟩,
           ⟨"2024-01-06", some ⟨10, 0⟩, some ⟨18, 0⟩, some 0⟩]).1
        = (bulk_import ⟨[], 1⟩
            [⟨"2024-01-05", some ⟨9, 0⟩, some ⟨17, 0⟩, some 30⟩,
             ⟨"2024-01-06", some ⟨10, 0⟩, some ⟨18, 0⟩, some 0⟩]).1 ∧
      (bulk_import ⟨[], 1⟩
          [⟨"2024-01-05", some ⟨9, 0⟩, some ⟨17, 0⟩, some 30⟩,
           ⟨"bad", none, none, none⟩,
           ⟨"2024-01-06", some ⟨10, 0⟩, some ⟨18, 0⟩, some 0⟩]).2
        = "Bulk import completed!" :=
  C9_bulk_import_skips ⟨"bad", none, none, none⟩ trivial ⟨[], 1⟩
    [⟨"2024-01-05", some ⟨9, 0⟩, some ⟨17, 0⟩, some 30⟩]
    [⟨"2024-01-06", some ⟨10, 0⟩, some ⟨18, 0⟩, some 0⟩]

/-- C10: `load_entries` returns the stored rows sorted by date descending
with ties broken by id descending (newest insertion first): the output is
pairwise ordered by `entryBefore`, is a permutation of the store's rows,
and after three adds dated 2024-01-05, 2024-01-01, 2024-01-10 the listed
order of dates is 01-10, 01-05, 01-01. -/
theorem C10_load_entries_sorted (st : Store) :
    (load_entries st).Pairwise entryBefore ∧
      (load_entries st).Perm st.entries ∧
      (load_entries
          ((addHandler
            ((addHandler
              ((addHandler ⟨[], 1⟩ "2024-01-05" ⟨9, 0⟩ ⟨17, 0⟩ 30).1)
              "2024-01-01" ⟨9, 0⟩ ⟨17, 0⟩ 30).1)
            "2024-01-10" ⟨9, 0⟩ ⟨17, 0⟩ 30).1)).map (·.date)
        = ["2024-01-10", "2024-01-05", "2024-01-01"] := by
  have hpos : 0 < calculate_hours ⟨9, 0⟩ ⟨17, 0⟩ 30 :=
    calculate_hours_pos ⟨9, 0⟩ ⟨17, 0⟩ 30 (by decide)
  refine ⟨List.sorted_insertionSort entryBefore st.entries,
    List.perm_insertionSort entryBefore st.entries, ?_⟩
  simp only [addHandler, if_pos hpos, add_entry]
  show (List.insertionSort entryBefore
      [⟨1, "2024-01-05", ⟨9, 0⟩, ⟨17, 0⟩, 30, calculate_hours ⟨9, 0⟩ ⟨17, 0⟩ 30⟩,
       ⟨2, "2024-01-01", ⟨9, 0⟩, ⟨17, 0⟩, 30, calculate_hours ⟨9, 0⟩ ⟨17, 0⟩ 30⟩,
       ⟨3, "2024-01-10", ⟨9, 0⟩, ⟨17, 0⟩, 30, calculate_hours ⟨9, 0⟩ ⟨17, 0⟩ 30⟩]).map (·.date)
    = ["2024-01-10", "2024-01-05", "2024-01-01"]
  have h23 : ¬ entryBefore
      ⟨2, "2024-01-01", ⟨9, 0⟩, ⟨17, 0⟩, 30, calculate_hours ⟨9, 0⟩ ⟨17, 0⟩ 30⟩
      ⟨3, "2024-01-10", ⟨9, 0⟩, ⟨17, 0⟩, 30, calculate_hours ⟨9, 0⟩ ⟨17, 0⟩ 30⟩ := by
    simp [entryBefore]
    decide
  have h13 : ¬ entryBefore
      ⟨1, "2024-01-05", ⟨9, 0⟩, ⟨17, 0⟩, 30, calculate_hours ⟨9, 0⟩ ⟨17, 0⟩ 30⟩
      ⟨3, "2024-01-10", ⟨9, 0⟩, ⟨17, 0⟩, 30, calculate_hours ⟨9, 0⟩ ⟨17, 0⟩ 30⟩ := by
    simp [entryBefore]
    decide
  have h12 : entryBefore
      ⟨1, "2024-01-05", ⟨9, 0⟩, ⟨17, 0⟩, 30, calculate_hours ⟨9, 0⟩ ⟨17, 0⟩ 30⟩
      ⟨2, "2024-01-01", ⟨9, 0⟩, ⟨17, 0⟩, 30, calculate_hours ⟨9, 0⟩ ⟨17, 0⟩ 30⟩ := by
    simp [entryBefore]
    decide
  simp only [List.insertionSort, List.orderedInsert, if_neg h23, if_neg h13,
    if_pos h12, List.map_cons, List.map_nil]

end Timesheet
